import Mathlib

/-!
Verification of the obamify GIF capture pipeline and generation input
preparer, shallowly embedded from `src/app/gif_recorder.rs` and
`src/app/calculate/util.rs`.

Modelling conventions:
* Rust `Vec<u8>` buffers are `List Nat`; machine-integer casts are made
  explicit (`% 65536` for `as u16`, `% 2 ^ 32` for wrapping `u32` arithmetic).
* External crates (`gif`, `color_quant`, `image`, `wgpu`, `rfd`) are not part
  of the repository; where one of their functions is called, the call is
  abstracted by a parameter (the bytes the gif encoder appends, the NeuQuant
  nearest-colour lookup, the Lanczos3 resampler, the save-dialog outcome) so
  that no theorem depends on behaviour the repository does not define.
* `f32` arithmetic in `CropScale::apply` is modelled exactly over `ℚ`; every
  operation involved (conversion of a dimension, division, floor, min, max,
  `* 0.5`) is exact in `f32` for dimensions below `2 ^ 24`, the only regime a
  real image can inhabit.
-/

/-! ### Constants from `gif_recorder.rs` -/

def GIF_FRAMERATE : Nat := 8

def GIF_RESOLUTION : Nat := 400

def GIF_MAX_FRAMES : Nat := 140

def GIF_MIN_FRAMES : Nat := 100

def GIF_MAX_SIZE : Nat := 10 * 1024 * 1024

def GIF_SPEED : ℚ := 3 / 2

def GIF_PALETTE_SAMPLEFAC : Nat := 1

/-- Frame delay in 1/100 s: `((100.0 / GIF_FRAMERATE as f32) / GIF_SPEED) as u16`.
The `f32` value is 25/3 = 8.33…, truncated by the `as u16` cast. -/
def GIF_DELAY : Nat := (((100 : ℚ) / (GIF_FRAMERATE : ℚ)) / GIF_SPEED).floor.toNat

/-! ### List helpers (Rust `Vec` operations) -/

/-- Rust `Vec::resize(n, 0)`: truncate to `n` elements or pad with zeros. -/
def listResize (l : List Nat) (n : Nat) : List Nat :=
  if n ≤ l.length then l.take n else l ++ List.replicate (n - l.length) 0

/-- Rust `dst[s .. s + repl.len()].copy_from_slice(repl)` on a list. -/
def setSlice (l : List Nat) (s : Nat) (repl : List Nat) : List Nat :=
  l.take s ++ repl ++ l.drop (s + repl.length)

/-- Rust `chunks_exact(4)`: the complete 4-byte chunks, remainder dropped. -/
def chunksExact4 : List Nat → List (List Nat)
  | a :: b :: c :: d :: rest => [a, b, c, d] :: chunksExact4 rest
  | _ => []

/-- The write loop `for (dst, chunk) in pixels.iter_mut().zip(chunks)`:
overwrites a prefix of `pixels` with `nq.index_of(chunk) as u8`; iteration
stops at the shorter of the two. -/
def quantizeInto (nq : List Nat → Nat) : List Nat → List (List Nat) → List Nat
  | [], _ => []
  | ps, [] => ps
  | _ :: ps, ch :: chs => (nq ch) % 256 :: quantizeInto nq ps chs

/-! ### Recorder data model (`gif_recorder.rs`) -/

/-- `GifStatus` (native cfg: `Complete` carries the chosen path). -/
inductive GifStatus where
  | none : GifStatus
  | recording : GifStatus
  | complete (path : String) : GifStatus
  | error (msg : String) : GifStatus
deriving DecidableEq

def GifStatus.is_recording : GifStatus → Bool
  | .recording => true
  | _ => false

def GifStatus.not_recording : GifStatus → Bool
  | .none => true
  | _ => false

/-- `InFlight`: the staging buffer contents as the host would see them once
mapped, plus the readiness flag the driver callback sets. -/
structure InFlight where
  buffer : List Nat
  ready : Bool
deriving DecidableEq

/-- `GifRecorder`. The gif encoder (`gif::Encoder<Vec<u8>>`) is represented by
its output sink: the bytes written so far.  The NeuQuant palette is represented
by its `index_of` lookup function. -/
structure GifRecorder where
  id : Nat
  status : GifStatus
  encoder : Option (List Nat)
  palette : Option (List Nat → Nat)
  frame_count : Nat
  inflight : Option InFlight
  should_stop : Bool
  rgba_buffer : List Nat
  quantized_buffer : List Nat

def GifRecorder.new : GifRecorder :=
  { id := 0
    status := .none
    encoder := Option.none
    palette := Option.none
    frame_count := 0
    inflight := Option.none
    should_stop := false
    rgba_buffer := []
    quantized_buffer := [] }

def GifRecorder.is_recording (r : GifRecorder) : Bool := r.status.is_recording

def GifRecorder.not_recording (r : GifRecorder) : Bool := r.status.not_recording

/-- The row-unpadding loop of `poll_inflight`: resize `rgba_buffer` to
`width*height*4` and copy each row `[y*padded, y*padded + unpadded)` of the
mapped staging buffer into `rgba_buffer[y*unpadded .. (y+1)*unpadded]`. -/
def unpadRows (old buf : List Nat) : List Nat :=
  let width := GIF_RESOLUTION
  let height := GIF_RESOLUTION
  let bpp := 4
  let unpadded_bytes_per_row := width * bpp
  let align := 256
  let padded_bytes_per_row := ((unpadded_bytes_per_row + align - 1) / align) * align
  let total_bytes := width * height * bpp
  (List.range height).foldl
    (fun acc y =>
      setSlice acc (y * unpadded_bytes_per_row)
        ((buf.drop (y * padded_bytes_per_row)).take unpadded_bytes_per_row))
    (listResize old total_bytes)

/-- `GifRecorder::poll_inflight`: if a readback is in flight and its readiness
flag is set, unpad its rows into `rgba_buffer`, consume the `InFlight` and
return `true`; otherwise return `false` and change nothing. -/
def GifRecorder.poll_inflight (r : GifRecorder) : Bool × GifRecorder :=
  match r.inflight with
  | Option.none => (false, r)
  | some infl =>
    if infl.ready then
      (true, { r with rgba_buffer := unpadRows r.rgba_buffer infl.buffer
                      inflight := Option.none })
    else (false, r)

inductive WriteErr where
  | noEncoder : WriteErr
  /-- `self.palette.as_ref().unwrap()` panics; distinguished from the
  returned `Err("No encoder")`. -/
  | paletteUnwrap : WriteErr
deriving DecidableEq

/-- `gif::Frame` (the fields `try_write_frame` sets). -/
structure Frame where
  width : Nat
  height : Nat
  buffer : List Nat
  delay : Nat

/-- `GifRecorder::try_write_frame`.  `&mut self` is modelled by returning the
new state next to the `Result<bool, _>`.  `encOut` abstracts the bytes the
external gif crate's `write_frame` appends to the output sink for this frame. -/
def GifRecorder.try_write_frame (r : GifRecorder) (encOut : List Nat) :
    GifRecorder × Except WriteErr Bool :=
  match r.poll_inflight with
  | (false, r1) => (r1, .ok false)
  | (true, r1) =>
    match r1.encoder with
    | Option.none => (r1, .error .noEncoder)
    | some out =>
      match r1.palette with
      | Option.none => (r1, .error .paletteUnwrap)
      | some nq =>
        let pixel_count := GIF_RESOLUTION * GIF_RESOLUTION
        let pixels := quantizeInto nq (listResize r1.quantized_buffer pixel_count)
          (chunksExact4 r1.rgba_buffer)
        let frame : Frame :=
          { width := GIF_RESOLUTION, height := GIF_RESOLUTION
            buffer := pixels, delay := GIF_DELAY }
        let frame_size := out.length + frame.buffer.length + 32
        if GIF_MAX_SIZE < frame_size then
          ({ r1 with quantized_buffer := frame.buffer, should_stop := true }, .ok true)
        else
          ({ r1 with encoder := some (out ++ encOut)
                     quantized_buffer := frame.buffer }, .ok true)

/-- `GifRecorder::init_encoder` (success path; writing to a `Vec` sink cannot
fail).  The NeuQuant palette built by the external `color_quant` crate is
abstracted as the lookup `nq`; the header bytes the external gif crate writes
at construction (screen descriptor, global colour table, repeat block) are
abstracted as `hdr`.  Note: neither `should_stop` nor `inflight` is touched. -/
def GifRecorder.init_encoder (r : GifRecorder) (nq : List Nat → Nat)
    (hdr : List Nat) : GifRecorder :=
  { r with palette := some nq
           encoder := some hdr
           frame_count := 0
           status := .recording }

/-- `GifRecorder::finish` (native path).  The `rfd` save dialog is abstracted
by `dialog` (`none` = dismissed).  `self.encoder.take().unwrap()` panics when
no encoder is present: that is the outer `Option.none`.  `into_inner` on a
`Vec` sink always yields `Ok(data)`; `fs::write` success is assumed (its
`unwrap` is outside the claims). -/
def GifRecorder.finish (r : GifRecorder) (dialog : Option String) :
    Option (GifRecorder × Bool) :=
  match r.encoder with
  | Option.none => Option.none
  | some _data =>
    let r1 := { r with encoder := Option.none }
    match r.status with
    | .recording =>
      match dialog with
      | some path => some ({ r1 with status := .complete path }, true)
      | Option.none => some (r1, false)
    | _ => some ({ r1 with status := .error "Something weird happened" }, true)

def GifRecorder.no_inflight (r : GifRecorder) : Bool := r.inflight.isNone

def GifRecorder.stop (r : GifRecorder) : GifRecorder :=
  { r with status := .none
           encoder := Option.none
           palette := Option.none
           frame_count := 0
           inflight := Option.none
           id := r.id + 1 }

/-- `GifRecorder::should_stop` (the method; the field of the same name is the
`should_stop` projection). -/
def GifRecorder.shouldStop (r : GifRecorder) : Bool :=
  if r.frame_count < GIF_MIN_FRAMES then false
  else if GIF_MAX_FRAMES ≤ r.frame_count then true
  else r.should_stop

def GifRecorder.get_name (_r : GifRecorder) (name : String) (reverse : Bool) : String :=
  if reverse then "unobamify_" ++ name else "obamify_" ++ name

/-! ### Host-side tick, modelled from the spec

The repository excerpt under `src/` contains no call site of
`try_write_frame`: the host application's per-frame tick (spec §4.4 row
"Recording | host tick & inflight ≠ None & readiness set" and §6 `tick()`)
is not included.  It is modelled here from the spec's words. -/

/-- Whether a call to `try_write_frame` on `r` would collect a ready readback
and append a frame to the encoder: the readback is ready, encoder and palette
are present, and the projected size `out.len() + R*R + 32` is within the
10 MiB budget (the quantized frame buffer always has length `R*R`). -/
def GifRecorder.appendsFrame (r : GifRecorder) : Bool :=
  match r.poll_inflight with
  | (false, _) => false
  | (true, r1) =>
    match r1.encoder, r1.palette with
    | some out, some _ =>
      decide (out.length + GIF_RESOLUTION * GIF_RESOLUTION + 32 ≤ GIF_MAX_SIZE)
    | _, _ => false

/-- Modelled from the spec: the host tick calls `try_write_frame` and bumps
`frame_count` by one exactly when a frame was collected and appended to the
encoder ("collect + append; `frame_count += 1`", §4.4; "`frame_count` equals
the number of frames successfully appended to the encoder", §5; the
over-budget frame "keeps `frame_count` unchanged", §9).  The increment itself
does not appear in the `src/` excerpt (`frame_count` is a `pub` field). -/
def GifRecorder.tick (r : GifRecorder) (encOut : List Nat) :
    GifRecorder × Except WriteErr Bool :=
  match r.try_write_frame encOut with
  | (r2, res) =>
    (if r.appendsFrame then { r2 with frame_count := r2.frame_count + 1 } else r2, res)

/-! ### Driver/host event traces

Environment events driving one recorder: `start` runs `init_encoder`;
`submitReady` models `get_color_image_data` submitting a readback whose
map-async callback has completed (readiness flag set, spec §5);
`tickE` is the modelled host tick; `stopE` runs `stop`. -/

inductive Event where
  | start (nq : List Nat → Nat) (hdr : List Nat) : Event
  | submitReady (buf : List Nat) : Event
  | tickE (encOut : List Nat) : Event
  | stopE : Event

def step (r : GifRecorder) : Event → GifRecorder
  | .start nq hdr => r.init_encoder nq hdr
  | .submitReady buf => { r with inflight := some ⟨buf, true⟩ }
  | .tickE encOut => (r.tick encOut).1
  | .stopE => r.stop

def runEvents (r : GifRecorder) (evs : List Event) : GifRecorder :=
  evs.foldl step r

/-- Whether a `try_write_frame` call on `r` would take the size-limit branch:
a ready readback is collected, encoder and palette are present, and the
projected size exceeds the 10 MiB budget (the encoder "reports
`SizeLimitReached`", spec §4.3). -/
def GifRecorder.limitReported (r : GifRecorder) : Bool :=
  match r.poll_inflight with
  | (false, _) => false
  | (true, r1) =>
    match r1.encoder, r1.palette with
    | some out, some _ =>
      decide (GIF_MAX_SIZE < out.length + GIF_RESOLUTION * GIF_RESOLUTION + 32)
    | _, _ => false

/-- Follows claim C2's words: whether the encoder reported the size limit
"during the current recording" — a size-limit report at some tick after the
most recent `start`.  `f` is the value carried in from the history before the
trace. -/
def reportedInCurrent (r : GifRecorder) (f : Bool) : List Event → Bool
  | [] => f
  | e :: rest =>
    reportedInCurrent (step r e)
      (match e with
       | .start _ _ => false
       | .tickE _ => f || r.limitReported
       | _ => f) rest

/-- Whether the encoder reported the size limit at any tick of the trace
(no reset at `start`: the flag's actual lifetime). -/
def reportedEver (r : GifRecorder) (f : Bool) : List Event → Bool
  | [] => f
  | e :: rest =>
    reportedEver (step r e)
      (match e with
       | .tickE _ => f || r.limitReported
       | _ => f) rest

/-- The number of frames appended to the encoder along a trace, reset to 0 at
`start` and `stop` exactly as the code resets `frame_count`. -/
def appendedCount (r : GifRecorder) (n : Nat) : List Event → Nat
  | [] => n
  | e :: rest =>
    appendedCount (step r e)
      (match e with
       | .start _ _ => 0
       | .stopE => 0
       | .tickE _ => n + (if r.appendsFrame then 1 else 0)
       | .submitReady _ => n) rest

/-! ### Image model (`calculate/util.rs`)

`SourceImg = image::RgbImage`: width, height, and the raw interleaved RGB
bytes in row-major order (3 bytes per pixel). -/

structure Img where
  width : Nat
  height : Nat
  data : List Nat
deriving DecidableEq

/-- The 3 RGB bytes of the pixel at `(x, y)`. -/
def Img.pixel (img : Img) (x y : Nat) : List Nat :=
  (img.data.drop (3 * (y * img.width + x))).take 3

/-- `enumerate_pixels()`: `(x, y, pixel)` in row-major order (x fastest). -/
def Img.enumeratePixels (img : Img) : List (Nat × Nat × List Nat) :=
  (List.range img.height).flatMap
    (fun y => (List.range img.width).map (fun x => (x, y, img.pixel x y)))

/-- `imageops::crop_imm(img, x, y, w, h).to_image()`: the crate clamps the
rectangle to the image (`crop_dimms`), then copies it row by row. -/
def cropImm (img : Img) (x y w h : Nat) : Img :=
  let x := min x img.width
  let y := min y img.height
  let h := min h (img.height - y)
  let w := min w (img.width - x)
  { width := w
    height := h
    data := (List.range h).flatMap
      (fun j => (img.data.drop (3 * ((y + j) * img.width + x))).take (3 * w)) }

/-- `GridPixel`; `x`/`y` hold the values of the `u16` fields. -/
structure GridPixel where
  x : Nat
  y : Nat
  rgb : List Nat
deriving DecidableEq

/-- `GridPixel::new(x: u32, y: u32, rgb)`: the `as u16` casts truncate. -/
def GridPixel.new (x y : Nat) (rgb : List Nat) : GridPixel :=
  { x := x % 65536, y := y % 65536, rgb := rgb }

def GridPixel.linear_index (p : GridPixel) (sidelen : Nat) : Nat :=
  p.y * sidelen + p.x

structure WeightedPixel where
  pixel : GridPixel
  weight : Nat
deriving DecidableEq

/-- `CropScale`; the three `f32` fields are modelled exactly over `ℚ`. -/
structure CropScale where
  x : ℚ
  y : ℚ
  scale : ℚ
deriving DecidableEq

def CropScale.identity : CropScale := { x := 0, y := 0, scale := 1 }

/-- `CropScale::apply`.  The Lanczos3 resampler lives in the external `image`
crate and is abstracted as the parameter `resize` (only its dimension contract
is ever relied on).  `.floor() as u32` on the non-negative values here is
`Int.floor` followed by `toNat`. -/
def CropScale.apply (c : CropScale) (resize : Img → Nat → Nat → Img)
    (img : Img) (sidelen : Nat) : Img :=
  let w := img.width
  let h := img.height
  let s : ℚ := max c.scale 1
  let base_side : ℚ := (min w h : Nat)
  let crop_side0 : ℚ := max ((⌊base_side / s⌋ : ℤ) : ℚ) 1
  let crop_side : ℚ := min (min crop_side0 (w : ℚ)) (h : ℚ)
  let max_x_off : ℚ := max ((w : ℚ) - crop_side) 0
  let max_y_off : ℚ := max ((h : ℚ) - crop_side) 0
  let xn : ℚ := (min (max c.x (-1)) 1 + 1) * (1 / 2)
  let yn : ℚ := (min (max c.y (-1)) 1 + 1) * (1 / 2)
  let x0 : Nat := (⌊xn * max_x_off⌋).toNat
  let y0 : Nat := (⌊yn * max_y_off⌋).toNat
  let cs : Nat := (⌊crop_side⌋).toNat
  let cropped := cropImm img x0 y0 cs cs
  if cs = sidelen then cropped else resize cropped sidelen sidelen

inductive Algorithm where
  | Optimal : Algorithm
  | Genetic : Algorithm
deriving DecidableEq

/-- `GenerationSettings`; the `Uuid` is a plain identifier value here and the
name is the byte/char sequence of the Rust `String`. -/
structure GenerationSettings where
  id : Nat
  name : List Char
  proximity_importance : Int
  algorithm : Algorithm
  sidelen : Nat
  custom_target : Option (Nat × Nat × List Nat)
  target_crop_scale : CropScale
  source_crop_scale : CropScale
deriving DecidableEq

def GenerationSettings.default (id : Nat) (name : List Char) : GenerationSettings :=
  { name := name
    proximity_importance := 13
    algorithm := .Genetic
    id := id
    sidelen := 128
    custom_target := Option.none
    target_crop_scale := CropScale.identity
    source_crop_scale := CropScale.identity }

/-- Modelled from the spec: the bundled 256×256 RGB `target256.png`
(spec §3, §6).  Its pixel content is not in the repository excerpt; only its
dimensions are used by any proof. -/
def target256 : Img := { width := 256, height := 256, data := List.replicate (3 * 256 * 256) 0 }

/-- Modelled from the spec: the bundled 256×256 RGB `weights256.png`
(spec §3, §6); as with `target256`, only its dimensions are used. -/
def weights256 : Img := { width := 256, height := 256, data := List.replicate (3 * 256 * 256) 0 }

/-- `load_weights`: `vec![0; w*h]` then `weights[y*w + x] = pixel[0]` for every
pixel. -/
def load_weights (source : Img) : List Nat :=
  source.enumeratePixels.foldl
    (fun ws p => ws.set (p.2.1 * source.width + p.1) (p.2.2.headD 0))
    (List.replicate (source.width * source.height) 0)

/-- `GenerationSettings::get_raw_target`.  For a custom target,
`ImageBuffer::from_vec(w, h, data).unwrap()` succeeds iff the buffer holds at
least `3*w*h` bytes; the panic on a too-short buffer is `Option.none`.  The
bundled-target branch decodes `target256.png` (modelled above). -/
def GenerationSettings.get_raw_target (s : GenerationSettings) : Option Img :=
  match s.custom_target with
  | some (w, h, data) =>
    if 3 * (w * h) ≤ data.length then some { width := w, height := h, data := data }
    else Option.none
  | Option.none => some target256

/-- `GenerationSettings::get_target`: crop/scale the raw target to `sidelen`;
weights are uniform 255 for a custom target, else the red channel of the
cropped/scaled bundled weight image. -/
def GenerationSettings.get_target (s : GenerationSettings)
    (resize : Img → Nat → Nat → Img) : Option (Img × List Nat) :=
  match s.get_raw_target with
  | Option.none => Option.none
  | some t =>
    let target := s.target_crop_scale.apply resize t s.sidelen
    let weights :=
      match s.custom_target with
      | some _ => List.replicate (s.sidelen * s.sidelen) 255
      | Option.none =>
        load_weights (s.target_crop_scale.apply resize weights256 s.sidelen)
    some (target, weights)

def GenerationSettings.set_raw_target (s : GenerationSettings) (img : Img) :
    GenerationSettings :=
  { s with custom_target := some (img.width, img.height, img.data) }

/-- `get_images`: crop/scale the source, fetch the target and weights, then
enumerate both grids; the trailing `assert_eq!` on the two lengths is the
final guard (`Option.none` = panic). -/
def get_images (resize : Img → Nat → Nat → Img) (source : Img)
    (settings : GenerationSettings) :
    Option (List GridPixel × List WeightedPixel) :=
  let source := settings.source_crop_scale.apply resize source settings.sidelen
  match settings.get_target resize with
  | Option.none => Option.none
  | some (target, weights) =>
    let source_pixels := source.enumeratePixels.map
      (fun p => GridPixel.new p.1 p.2.1 p.2.2)
    let target_pixels := (target.enumeratePixels.zip weights).map
      (fun pw => { pixel := GridPixel.new pw.1.1 pw.1.2.1 pw.1.2.2
                   weight := pw.2 : WeightedPixel })
    if source_pixels.length = target_pixels.length then
      some (source_pixels, target_pixels)
    else Option.none

/-! ### Name bumping (`clone_with_new_id`) -/

/-- Rust `str::rfind(" v")`: the position of the last occurrence of the
two-character pattern, if any. -/
def lastVpos (name : List Char) : Option Nat :=
  ((List.range (name.length + 1)).filter
    (fun i => [' ', 'v'].isPrefixOf (name.drop i))).getLast?

/-- Rust `str::parse::<u32>()`: an optional leading `'+'`, then one or more
ASCII digits, value at most `2^32 - 1`. -/
def parseU32 (s : List Char) : Option Nat :=
  let digits := match s with
    | '+' :: rest => rest
    | _ => s
  if digits.isEmpty then Option.none
  else if digits.all Char.isDigit then
    let v := digits.foldl (fun acc c => acc * 10 + (c.toNat - 48)) 0
    if v < 2 ^ 32 then some v else Option.none
  else Option.none

/-- `GenerationSettings::clone_with_new_id`.  `Uuid::new_v4()` (external,
random) is abstracted as the parameter `freshId`.  `version + 1` on a `u32`
wraps in release builds, hence the `% 2 ^ 32`. -/
def GenerationSettings.clone_with_new_id (s : GenerationSettings)
    (freshId : Nat) : GenerationSettings :=
  let newName :=
    match lastVpos s.name with
    | some v_pos =>
      let potential_version := s.name.drop (v_pos + 2)
      match parseU32 potential_version with
      | some version =>
        s.name.take v_pos ++ [' ', 'v'] ++ Nat.toDigits 10 ((version + 1) % 2 ^ 32)
      | Option.none => s.name ++ [' ', 'v', '2']
    | Option.none => s.name ++ [' ', 'v', '2']
  { s with id := freshId, name := newName }

/-- The recorder state right after a ready readback has been collected. -/
def collectState (r : GifRecorder) (buf : List Nat) : GifRecorder :=
  { r with rgba_buffer := unpadRows r.rgba_buffer buf, inflight := Option.none }

/-- The quantized buffer `try_write_frame` produces from a collected readback. -/
def newQuant (nq : List Nat → Nat) (r : GifRecorder) (buf : List Nat) : List Nat :=
  quantizeInto nq (listResize r.quantized_buffer (GIF_RESOLUTION * GIF_RESOLUTION))
    (chunksExact4 (unpadRows r.rgba_buffer buf))

/-- A recorder state with given `frame_count` and `should_stop` flag. -/
def mkCount (fc : Nat) (flag : Bool) : GifRecorder :=
  { GifRecorder.new with frame_count := fc, should_stop := flag }

/-- A trivial nearest-colour lookup for witnesses. -/
def nq0 : List Nat → Nat := fun _ => 0

/-- A recorder mid-recording whose encoder output is already one byte past the
largest length for which another 400×400 frame fits the 10 MiB budget. -/
def c3rec : GifRecorder :=
  { GifRecorder.new with
      status := .recording
      encoder := some (List.replicate 10325729 0)
      palette := some nq0
      inflight := some ⟨[], true⟩ }

/-! ### Claim C4 (code bug) -/

/-- A recorder in the `Recording` state holding an encoder with some output. -/
def c4rec : GifRecorder :=
  { GifRecorder.new with
      status := .recording
      encoder := some [0, 1, 2]
      palette := some nq0 }

/-! ### Repeated submit-and-tick cycles -/

/-- `n` cycles of "driver completes a readback; host ticks", each frame
encoding to a single byte. -/
def cycleEvents : Nat → List Event
  | 0 => []
  | n + 1 => Event.submitReady [] :: Event.tickE [0] :: cycleEvents n

/-! ### Claim C2 (counterexample to the claim as stated) -/

/-- A frame encoding whose bytes push the output one past the largest length
that still admits another projected frame. -/
def bigFrame : List Nat := List.replicate 10325729 0

/-- Two recordings: the first overruns the size budget at its second tick
(setting the internal flag); after `stop`, a second recording appends
`GIF_MIN_FRAMES` small frames without ever hitting the budget. -/
def c2trace : List Event :=
  [Event.start nq0 [], Event.submitReady [], Event.tickE bigFrame,
   Event.submitReady [], Event.tickE [], Event.stopE, Event.start nq0 []]
  ++ cycleEvents GIF_MIN_FRAMES

def c2state : GifRecorder := runEvents GifRecorder.new c2trace

def c2s1 : GifRecorder := step GifRecorder.new (Event.start nq0 [])

def c2s3 : GifRecorder :=
  step (step c2s1 (Event.submitReady [])) (Event.tickE bigFrame)

def c2s5 : GifRecorder := step (step c2s3 (Event.submitReady [])) (Event.tickE [])

def c2s7 : GifRecorder := step (step c2s5 Event.stopE) (Event.start nq0 [])

/-! ### Claim C8: row unpadding -/

/-- The first `n` unpadded rows of the staging buffer, concatenated. -/
def rowsFlat (buf : List Nat) (p u : Nat) : Nat → List Nat
  | 0 => []
  | n + 1 => rowsFlat buf p u n ++ (buf.drop (n * p)).take u

/-- A recorder with a ready readback holding a full-size staging buffer. -/
def c8rec : GifRecorder :=
  { GifRecorder.new with
      status := .recording
      inflight := some ⟨List.replicate 716800 7, true⟩ }

/-- The invariant `set_raw_target` maintains: a custom target's buffer holds
at least `3·w·h` bytes (`into_raw` of an `RgbImage` yields exactly that), so
`ImageBuffer::from_vec(...).unwrap()` cannot panic. -/
def ValidCustomTarget (s : GenerationSettings) : Prop :=
  ∀ w h d, s.custom_target = some (w, h, d) → 3 * (w * h) ≤ d.length

/-- A resampler stub for witnesses: correct output dimensions, empty content. -/
def rz0 : Img → Nat → Nat → Img := fun _ a b => { width := a, height := b, data := [] }

def c7src : Img := { width := 1, height := 1, data := [1, 2, 3] }

def c7settings : GenerationSettings :=
  { GenerationSettings.default 0 [] with
      sidelen := 1
      custom_target := some (1, 1, [4, 5, 6]) }

def c9img : Img :=
  { width := 2, height := 2
    data := [10, 11, 12, 20, 21, 22, 30, 31, 32, 40, 41, 42] }

/-! ### Claim C5 -/

def c5settings : GenerationSettings :=
  { GenerationSettings.default 0 [] with
      sidelen := 1
      custom_target := some (2, 1, [1, 2, 3, 4, 5, 6]) }

/-! ### Claim C10 -/

def c10settings : GenerationSettings :=
  GenerationSettings.default 0 ("a v+5".toList)

/-- Follows claim C10's words: if the name ends in `" v<digits>"` (a nonempty
all-digit suffix after the last `" v"`), increment that number; otherwise
append `" v2"`. -/
def claimBumpName (name : List Char) : List Char :=
  match lastVpos name with
  | some p =>
    if !(name.drop (p + 2)).isEmpty && (name.drop (p + 2)).all Char.isDigit then
      name.take p ++ [' ', 'v'] ++
        Nat.toDigits 10
          (((name.drop (p + 2)).foldl (fun acc c => acc * 10 + (c.toNat - 48)) 0) + 1)
    else name ++ [' ', 'v', '2']
  | Option.none => name ++ [' ', 'v', '2']

/-- The name transformation as the amended claim describes it: the suffix
after the last `" v"` is parsed as a Rust `u32` (optional leading `'+'`,
digits, value below `2^32`); on success the number is incremented (wrapping
mod `2^32`), otherwise `" v2"` is appended. -/
def bumpNameAmended (name : List Char) : List Char :=
  match lastVpos name with
  | some v_pos =>
    match parseU32 (name.drop (v_pos + 2)) with
    | some version =>
      name.take v_pos ++ [' ', 'v'] ++ Nat.toDigits 10 ((version + 1) % 2 ^ 32)
    | Option.none => name ++ [' ', 'v', '2']
  | Option.none => name ++ [' ', 'v', '2']

/-! ### Basic lemmas about the recorder operations -/

theorem listResize_length (l : List Nat) (n : Nat) : (listResize l n).length = n := by
  unfold listResize
  split <;> simp_all
  omega

theorem quantizeInto_length (nq : List Nat → Nat) :
    ∀ ps chs, (quantizeInto nq ps chs).length = ps.length := by
  intro ps
  induction ps with
  | nil => intro chs; cases chs <;> rfl
  | cons p ps ih =>
    intro chs
    cases chs with
    | nil => rfl
    | cons c cs => simp [quantizeInto, ih]

theorem poll_eq_none (r : GifRecorder) (h : r.inflight = Option.none) :
    r.poll_inflight = (false, r) := by
  simp [GifRecorder.poll_inflight, h]

theorem poll_eq_unready (r : GifRecorder) (buf : List Nat)
    (h : r.inflight = some ⟨buf, false⟩) : r.poll_inflight = (false, r) := by
  simp [GifRecorder.poll_inflight, h]

theorem poll_eq_ready (r : GifRecorder) (buf : List Nat)
    (h : r.inflight = some ⟨buf, true⟩) :
    r.poll_inflight = (true, collectState r buf) := by
  simp [GifRecorder.poll_inflight, h, collectState]

theorem twf_eq_noinflight (r : GifRecorder) (e : List Nat)
    (h : r.inflight = Option.none) : r.try_write_frame e = (r, .ok false) := by
  simp [GifRecorder.try_write_frame, poll_eq_none r h]

theorem twf_eq_unready (r : GifRecorder) (buf e : List Nat)
    (h : r.inflight = some ⟨buf, false⟩) : r.try_write_frame e = (r, .ok false) := by
  simp [GifRecorder.try_write_frame, poll_eq_unready r buf h]

theorem twf_eq_noencoder (r : GifRecorder) (buf e : List Nat)
    (hin : r.inflight = some ⟨buf, true⟩) (henc : r.encoder = Option.none) :
    r.try_write_frame e = (collectState r buf, .error .noEncoder) := by
  simp [GifRecorder.try_write_frame, poll_eq_ready r buf hin, collectState, henc]

theorem twf_eq_nopalette (r : GifRecorder) (buf e out : List Nat)
    (hin : r.inflight = some ⟨buf, true⟩) (henc : r.encoder = some out)
    (hpal : r.palette = Option.none) :
    r.try_write_frame e = (collectState r buf, .error .paletteUnwrap) := by
  simp [GifRecorder.try_write_frame, poll_eq_ready r buf hin, collectState, henc, hpal]

theorem twf_eq_limit (r : GifRecorder) (buf e out : List Nat) (nq : List Nat → Nat)
    (hin : r.inflight = some ⟨buf, true⟩) (henc : r.encoder = some out)
    (hpal : r.palette = some nq)
    (hsz : GIF_MAX_SIZE < out.length + GIF_RESOLUTION * GIF_RESOLUTION + 32) :
    r.try_write_frame e =
      ({ collectState r buf with
          quantized_buffer := newQuant nq r buf
          should_stop := true }, .ok true) := by
  simp [GifRecorder.try_write_frame, poll_eq_ready r buf hin, collectState, henc, hpal,
    newQuant, quantizeInto_length, listResize_length, hsz]

theorem twf_eq_append (r : GifRecorder) (buf e out : List Nat) (nq : List Nat → Nat)
    (hin : r.inflight = some ⟨buf, true⟩) (henc : r.encoder = some out)
    (hpal : r.palette = some nq)
    (hsz : out.length + GIF_RESOLUTION * GIF_RESOLUTION + 32 ≤ GIF_MAX_SIZE) :
    r.try_write_frame e =
      ({ collectState r buf with
          encoder := some (out ++ e)
          quantized_buffer := newQuant nq r buf }, .ok true) := by
  simp [GifRecorder.try_write_frame, poll_eq_ready r buf hin, collectState, henc, hpal,
    newQuant, quantizeInto_length, listResize_length, Nat.not_lt.mpr hsz]

/-- Field effects of `try_write_frame` and of the modelled `tick`, by cases on
the readback, encoder, palette and size budget. -/
theorem tick_twf_fields (r : GifRecorder) (e : List Nat) :
    (r.try_write_frame e).1.frame_count = r.frame_count ∧
    (r.try_write_frame e).1.encoder =
      (if r.appendsFrame then r.encoder.map (fun o => o ++ e) else r.encoder) ∧
    (r.try_write_frame e).1.should_stop = (r.should_stop || r.limitReported) ∧
    (r.try_write_frame e).1.palette = r.palette ∧
    (r.try_write_frame e).1.status = r.status ∧
    (r.try_write_frame e).1.id = r.id ∧
    (r.tick e).1.frame_count = r.frame_count + (if r.appendsFrame then 1 else 0) ∧
    (r.tick e).1.encoder =
      (if r.appendsFrame then r.encoder.map (fun o => o ++ e) else r.encoder) ∧
    (r.tick e).1.should_stop = (r.should_stop || r.limitReported) ∧
    (r.tick e).1.palette = r.palette ∧
    (r.tick e).1.status = r.status ∧
    (r.tick e).1.id = r.id := by
  rcases hin : r.inflight with _ | ⟨buf, rdy⟩
  · simp [GifRecorder.tick, twf_eq_noinflight r e hin, GifRecorder.appendsFrame,
      GifRecorder.limitReported, poll_eq_none r hin]
  · cases rdy
    · simp [GifRecorder.tick, twf_eq_unready r buf e hin, GifRecorder.appendsFrame,
        GifRecorder.limitReported, poll_eq_unready r buf hin]
    · rcases henc : r.encoder with _ | out
      · simp [GifRecorder.tick, twf_eq_noencoder r buf e hin henc, GifRecorder.appendsFrame,
          GifRecorder.limitReported, poll_eq_ready r buf hin, collectState, henc]
      · rcases hpal : r.palette with _ | nq
        · simp [GifRecorder.tick, twf_eq_nopalette r buf e out hin henc hpal,
            GifRecorder.appendsFrame, GifRecorder.limitReported,
            poll_eq_ready r buf hin, collectState, henc, hpal]
        · by_cases hsz : out.length + GIF_RESOLUTION * GIF_RESOLUTION + 32 ≤ GIF_MAX_SIZE
          · have h1 : ¬(GIF_MAX_SIZE < out.length + GIF_RESOLUTION * GIF_RESOLUTION + 32) :=
              Nat.not_lt.mpr hsz
            simp [GifRecorder.tick, twf_eq_append r buf e out nq hin henc hpal hsz,
              GifRecorder.appendsFrame, GifRecorder.limitReported,
              poll_eq_ready r buf hin, collectState, henc, hpal, hsz, h1]
          · have h2 : GIF_MAX_SIZE < out.length + GIF_RESOLUTION * GIF_RESOLUTION + 32 :=
              Nat.not_le.mp hsz
            simp [GifRecorder.tick, twf_eq_limit r buf e out nq hin henc hpal h2,
              GifRecorder.appendsFrame, GifRecorder.limitReported,
              poll_eq_ready r buf hin, collectState, henc, hpal, hsz, h2]

theorem run_frame_count :
    ∀ (evs : List Event) (r : GifRecorder),
      (runEvents r evs).frame_count = appendedCount r r.frame_count evs := by
  intro evs
  induction evs with
  | nil => intro r; rfl
  | cons ev rest ih =>
    intro r
    have hstep : runEvents r (ev :: rest) = runEvents (step r ev) rest := rfl
    rw [hstep, ih]
    cases ev with
    | start nq hdr => simp [appendedCount, step, GifRecorder.init_encoder]
    | submitReady buf => simp [appendedCount, step]
    | tickE e => simp [appendedCount, step, (tick_twf_fields r e).2.2.2.2.2.2.1]
    | stopE => simp [appendedCount, step, GifRecorder.stop]

theorem run_should_stop :
    ∀ (evs : List Event) (r : GifRecorder),
      (runEvents r evs).should_stop = reportedEver r r.should_stop evs := by
  intro evs
  induction evs with
  | nil => intro r; rfl
  | cons ev rest ih =>
    intro r
    have hstep : runEvents r (ev :: rest) = runEvents (step r ev) rest := rfl
    rw [hstep, ih]
    cases ev with
    | start nq hdr => simp [reportedEver, step, GifRecorder.init_encoder]
    | submitReady buf => simp [reportedEver, step]
    | tickE e => simp [reportedEver, step, (tick_twf_fields r e).2.2.2.2.2.2.2.2.1]
    | stopE => simp [reportedEver, step, GifRecorder.stop]

/-! ### Claim C1 -/

/-- Claim C1: `try_write_frame` itself never changes `frame_count`; the
spec-modelled host tick increases `frame_count` by exactly 1 precisely when
the call collects a ready readback and appends a frame to the encoder
(`appendsFrame`), and leaves it unchanged when nothing is appended (in which
case the encoder bytes are also unchanged); consequently, along any event
trace, `frame_count` equals the number of frames appended since the current
recording started. -/
theorem c1_frame_count_equals_appended_frames (r : GifRecorder) (e : List Nat)
    (evs : List Event) :
    (r.try_write_frame e).1.frame_count = r.frame_count ∧
    (r.tick e).1.frame_count = r.frame_count + (if r.appendsFrame then 1 else 0) ∧
    (r.try_write_frame e).1.encoder =
      (if r.appendsFrame then r.encoder.map (fun o => o ++ e) else r.encoder) ∧
    (runEvents r evs).frame_count = appendedCount r r.frame_count evs := by
  exact ⟨(tick_twf_fields r e).1, (tick_twf_fields r e).2.2.2.2.2.2.1,
    (tick_twf_fields r e).2.1, run_frame_count evs r⟩

/-! ### Claim C2 (amended) -/

/-- Claim C2 as amended: `should_stop()` is `false` below `GIF_MIN_FRAMES`,
`true` from `GIF_MAX_FRAMES` on, and in between returns the internal
`should_stop` flag — and that flag equals "the encoder reported the size limit
at some tick since the recorder was constructed", with no reset at `stop` or
`start` (so not merely "during the current recording"). -/
theorem c2_should_stop_amended (r : GifRecorder) (evs : List Event) :
    (r.frame_count < GIF_MIN_FRAMES → r.shouldStop = false) ∧
    (GIF_MAX_FRAMES ≤ r.frame_count → r.shouldStop = true) ∧
    (GIF_MIN_FRAMES ≤ r.frame_count → r.frame_count < GIF_MAX_FRAMES →
      r.shouldStop = r.should_stop) ∧
    (runEvents r evs).should_stop = reportedEver r r.should_stop evs := by
  refine ⟨?_, ?_, ?_, run_should_stop evs r⟩
  · intro h
    simp [GifRecorder.shouldStop, h]
  · intro h
    have h1 : ¬ r.frame_count < GIF_MIN_FRAMES := by
      simp [GIF_MIN_FRAMES, GIF_MAX_FRAMES] at *
      omega
    simp [GifRecorder.shouldStop, h1, h]
  · intro h h2
    have h1 : ¬ r.frame_count < GIF_MIN_FRAMES := by omega
    have h3 : ¬ GIF_MAX_FRAMES ≤ r.frame_count := by omega
    simp [GifRecorder.shouldStop, h1, h3]

theorem c2_should_stop_amended_witness :
    (mkCount 99 true).shouldStop = false ∧
    (mkCount 140 false).shouldStop = true ∧
    (mkCount 120 true).shouldStop = true ∧
    (runEvents (mkCount 0 false) []).should_stop =
      reportedEver (mkCount 0 false) false [] := by
  refine ⟨(c2_should_stop_amended (mkCount 99 true) []).1 (by decide),
    (c2_should_stop_amended (mkCount 140 false) []).2.1 (by decide), ?_, ?_⟩
  · have h := (c2_should_stop_amended (mkCount 120 true) []).2.2.1
      (by decide) (by decide)
    rw [h]
    rfl
  · exact (c2_should_stop_amended (mkCount 0 false) []).2.2.2

/-! ### Claim C3 -/

/-- Claim C3: when `try_write_frame` processes a ready readback and the
projected size `out.len() + quantized.len() + 32` (with `quantized.len() =
R*R`) exceeds 10 MiB, the frame is not appended (the encoder's output bytes
are unchanged), the call returns `Ok(true)` rather than an error, the
internal `should_stop` flag is set, and `frame_count` is untouched. -/
theorem c3_size_limit_not_an_error (r : GifRecorder) (buf e out : List Nat)
    (nq : List Nat → Nat) (hin : r.inflight = some ⟨buf, true⟩)
    (henc : r.encoder = some out) (hpal : r.palette = some nq)
    (hsz : GIF_MAX_SIZE < out.length + GIF_RESOLUTION * GIF_RESOLUTION + 32) :
    (r.try_write_frame e).2 = .ok true ∧
    (r.try_write_frame e).1.encoder = some out ∧
    (r.try_write_frame e).1.should_stop = true ∧
    (r.try_write_frame e).1.frame_count = r.frame_count := by
  rw [twf_eq_limit r buf e out nq hin henc hpal hsz]
  simp [collectState, henc]

theorem c3_size_limit_not_an_error_witness :
    (c3rec.try_write_frame []).2 = .ok true ∧
    (c3rec.try_write_frame []).1.encoder = some (List.replicate 10325729 0) ∧
    (c3rec.try_write_frame []).1.should_stop = true ∧
    (c3rec.try_write_frame []).1.frame_count = 0 := by
  have hsz : GIF_MAX_SIZE <
      (List.replicate 10325729 (0 : Nat)).length + GIF_RESOLUTION * GIF_RESOLUTION + 32 := by
    rw [List.length_replicate]
    norm_num [GIF_MAX_SIZE, GIF_RESOLUTION]
  have h := c3_size_limit_not_an_error c3rec [] [] (List.replicate 10325729 0) nq0
    rfl rfl rfl hsz
  exact ⟨h.1, h.2.1, h.2.2.1, h.2.2.2⟩

/-- Claim C4 (code bug): when the save dialog is dismissed, `finish` does
return `false` and does leave `status = Recording` — but
`self.encoder.take().unwrap()` has already removed the encoder (and dropped
the encoded bytes), so contrary to the claim the recorder no longer holds its
encoder, and any subsequent `finish` call panics on the `unwrap` instead of
completing the recording. -/
theorem c4_finish_dismiss_drops_encoder :
    c4rec.finish Option.none = some ({ c4rec with encoder := Option.none }, false) ∧
    ({ c4rec with encoder := Option.none } : GifRecorder).status = .recording ∧
    GifRecorder.finish { c4rec with encoder := Option.none } Option.none =
      Option.none ∧
    GifRecorder.finish { c4rec with encoder := Option.none } (some "retry.gif") =
      Option.none := by
  exact ⟨rfl, rfl, rfl, rfl⟩

theorem appendsFrame_of_small (r : GifRecorder) (buf out : List Nat)
    (nq : List Nat → Nat) (hin : r.inflight = some ⟨buf, true⟩)
    (henc : r.encoder = some out) (hpal : r.palette = some nq)
    (hsz : out.length + GIF_RESOLUTION * GIF_RESOLUTION + 32 ≤ GIF_MAX_SIZE) :
    r.appendsFrame = true := by
  simp [GifRecorder.appendsFrame, poll_eq_ready r buf hin, collectState, henc, hpal, hsz]

theorem limitReported_of_small (r : GifRecorder) (buf out : List Nat)
    (nq : List Nat → Nat) (hin : r.inflight = some ⟨buf, true⟩)
    (henc : r.encoder = some out) (hpal : r.palette = some nq)
    (hsz : out.length + GIF_RESOLUTION * GIF_RESOLUTION + 32 ≤ GIF_MAX_SIZE) :
    r.limitReported = false := by
  simp [GifRecorder.limitReported, poll_eq_ready r buf hin, collectState, henc, hpal,
    Nat.not_lt.mpr hsz]

/-- One "driver completes, host ticks" cycle appends one frame when the
budget allows it. -/
theorem one_cycle (r : GifRecorder) (out e : List Nat) (nq : List Nat → Nat)
    (henc : r.encoder = some out) (hpal : r.palette = some nq)
    (hsz : out.length + GIF_RESOLUTION * GIF_RESOLUTION + 32 ≤ GIF_MAX_SIZE) :
    (step (step r (Event.submitReady [])) (Event.tickE e)).frame_count =
      r.frame_count + 1 ∧
    (step (step r (Event.submitReady [])) (Event.tickE e)).encoder =
      some (out ++ e) ∧
    (step (step r (Event.submitReady [])) (Event.tickE e)).should_stop =
      r.should_stop ∧
    (step (step r (Event.submitReady [])) (Event.tickE e)).status = r.status ∧
    (step (step r (Event.submitReady [])) (Event.tickE e)).palette = some nq ∧
    (step r (Event.submitReady [])).limitReported = false := by
  have hin1 : (step r (Event.submitReady [])).inflight = some ⟨[], true⟩ := rfl
  have henc1 : (step r (Event.submitReady [])).encoder = some out := henc
  have hpal1 : (step r (Event.submitReady [])).palette = some nq := hpal
  have happ := appendsFrame_of_small (step r (Event.submitReady [])) [] out nq
    hin1 henc1 hpal1 hsz
  have hlim := limitReported_of_small (step r (Event.submitReady [])) [] out nq
    hin1 henc1 hpal1 hsz
  have ht := tick_twf_fields (step r (Event.submitReady [])) e
  refine ⟨?_, ?_, ?_, ?_, ?_, hlim⟩
  · show ((step r (Event.submitReady [])).tick e).1.frame_count = r.frame_count + 1
    rw [ht.2.2.2.2.2.2.1, happ]
    rfl
  · show ((step r (Event.submitReady [])).tick e).1.encoder = some (out ++ e)
    rw [ht.2.2.2.2.2.2.2.1, happ]
    simp [henc1]
  · show ((step r (Event.submitReady [])).tick e).1.should_stop = r.should_stop
    rw [ht.2.2.2.2.2.2.2.2.1, hlim]
    simp only [Bool.or_false]
    rfl
  · exact ht.2.2.2.2.2.2.2.2.2.2.1
  · show ((step r (Event.submitReady [])).tick e).1.palette = some nq
    rw [ht.2.2.2.2.2.2.2.2.2.1]
    exact hpal

/-- Effect of `n` append cycles while the output stays within the budget:
`frame_count` grows by `n`, the encoder output by `n` bytes, the
`should_stop` flag, status and palette are untouched, and no size limit is
reported at any of the ticks. -/
theorem run_cycles (n : Nat) :
    ∀ (r : GifRecorder) (out : List Nat) (nq : List Nat → Nat),
      r.encoder = some out → r.palette = some nq →
      out.length + n + GIF_RESOLUTION * GIF_RESOLUTION + 32 ≤ GIF_MAX_SIZE →
      (runEvents r (cycleEvents n)).frame_count = r.frame_count + n ∧
      (runEvents r (cycleEvents n)).should_stop = r.should_stop ∧
      (runEvents r (cycleEvents n)).status = r.status ∧
      (∃ out2, (runEvents r (cycleEvents n)).encoder = some out2 ∧
        out2.length = out.length + n) ∧
      (runEvents r (cycleEvents n)).palette = some nq ∧
      (∀ f, reportedInCurrent r f (cycleEvents n) = f) ∧
      (∀ f, reportedEver r f (cycleEvents n) = f) := by
  induction n with
  | zero =>
    intro r out nq henc hpal _
    exact ⟨rfl, rfl, rfl, ⟨out, henc, rfl⟩, hpal, fun f => rfl, fun f => rfl⟩
  | succ n ih =>
    intro r out nq henc hpal hsz
    have hb : out.length + GIF_RESOLUTION * GIF_RESOLUTION + 32 ≤ GIF_MAX_SIZE := by
      omega
    have hc := one_cycle r out [0] nq henc hpal hb
    have hlen2 : (out ++ [0]).length + n + GIF_RESOLUTION * GIF_RESOLUTION + 32
        ≤ GIF_MAX_SIZE := by
      simp only [List.length_append, List.length_cons, List.length_nil]
      omega
    have hIH := ih (step (step r (Event.submitReady [])) (Event.tickE [0]))
      (out ++ [0]) nq hc.2.1 hc.2.2.2.2.1 hlen2
    have hrun : runEvents r (cycleEvents (n + 1)) =
        runEvents (step (step r (Event.submitReady [])) (Event.tickE [0]))
          (cycleEvents n) := rfl
    refine ⟨?_, ?_, ?_, ?_, ?_, ?_, ?_⟩
    · rw [hrun, hIH.1, hc.1]
      omega
    · rw [hrun, hIH.2.1, hc.2.2.1]
    · rw [hrun, hIH.2.2.1, hc.2.2.2.1]
    · obtain ⟨out2, ho, hl⟩ := hIH.2.2.2.1
      refine ⟨out2, ?_, ?_⟩
      · rw [hrun]
        exact ho
      · rw [hl]
        simp only [List.length_append, List.length_cons, List.length_nil]
        omega
    · rw [hrun]
      exact hIH.2.2.2.2.1
    · intro f
      have hstepf : reportedInCurrent r f (cycleEvents (n + 1)) =
          reportedInCurrent (step (step r (Event.submitReady [])) (Event.tickE [0]))
            (f || (step r (Event.submitReady [])).limitReported) (cycleEvents n) := rfl
      rw [hstepf, hc.2.2.2.2.2]
      simp only [Bool.or_false]
      exact hIH.2.2.2.2.2.1 f
    · intro f
      have hstepf : reportedEver r f (cycleEvents (n + 1)) =
          reportedEver (step (step r (Event.submitReady [])) (Event.tickE [0]))
            (f || (step r (Event.submitReady [])).limitReported) (cycleEvents n) := rfl
      rw [hstepf, hc.2.2.2.2.2]
      simp only [Bool.or_false]
      exact hIH.2.2.2.2.2.2 f

theorem appendsFrame_of_big (r : GifRecorder) (buf out : List Nat)
    (nq : List Nat → Nat) (hin : r.inflight = some ⟨buf, true⟩)
    (henc : r.encoder = some out) (hpal : r.palette = some nq)
    (hsz : GIF_MAX_SIZE < out.length + GIF_RESOLUTION * GIF_RESOLUTION + 32) :
    r.appendsFrame = false := by
  simp [GifRecorder.appendsFrame, poll_eq_ready r buf hin, collectState, henc, hpal,
    Nat.not_le.mpr hsz]

theorem limitReported_of_big (r : GifRecorder) (buf out : List Nat)
    (nq : List Nat → Nat) (hin : r.inflight = some ⟨buf, true⟩)
    (henc : r.encoder = some out) (hpal : r.palette = some nq)
    (hsz : GIF_MAX_SIZE < out.length + GIF_RESOLUTION * GIF_RESOLUTION + 32) :
    r.limitReported = true := by
  simp [GifRecorder.limitReported, poll_eq_ready r buf hin, collectState, henc, hpal, hsz]

/-! ### Claim C6 -/

/-- Claim C6: neither `stop()` nor `init_encoder()` touches the internal
`should_stop` flag, so a size-limit signal raised in one recording persists
into the next recording started after `stop()`: once that recording has
appended `GIF_MIN_FRAMES` frames, `should_stop()` returns `true`. -/
theorem c6_stop_and_start_preserve_stop_flag (r : GifRecorder)
    (nq : List Nat → Nat) (hdr : List Nat) :
    r.stop.should_stop = r.should_stop ∧
    (r.init_encoder nq hdr).should_stop = r.should_stop ∧
    (r.should_stop = true →
      (runEvents (r.stop.init_encoder nq []) (cycleEvents GIF_MIN_FRAMES)).frame_count
        = GIF_MIN_FRAMES ∧
      (runEvents (r.stop.init_encoder nq []) (cycleEvents GIF_MIN_FRAMES)).shouldStop
        = true) := by
  refine ⟨rfl, rfl, ?_⟩
  intro hss
  have henc : (r.stop.init_encoder nq []).encoder = some [] := rfl
  have hpal : (r.stop.init_encoder nq []).palette = some nq := rfl
  have hsz : ([] : List Nat).length + GIF_MIN_FRAMES +
      GIF_RESOLUTION * GIF_RESOLUTION + 32 ≤ GIF_MAX_SIZE := by
    norm_num [GIF_MIN_FRAMES, GIF_RESOLUTION, GIF_MAX_SIZE]
  have h := run_cycles GIF_MIN_FRAMES (r.stop.init_encoder nq []) [] nq henc hpal hsz
  have hfc : (runEvents (r.stop.init_encoder nq []) (cycleEvents GIF_MIN_FRAMES)).frame_count
      = GIF_MIN_FRAMES := by
    rw [h.1]
    simp [GifRecorder.init_encoder]
  refine ⟨hfc, ?_⟩
  have hflag : (runEvents (r.stop.init_encoder nq []) (cycleEvents GIF_MIN_FRAMES)).should_stop
      = true := by
    rw [h.2.1]
    exact hss
  unfold GifRecorder.shouldStop
  rw [hfc, hflag]
  decide

theorem c6_stop_and_start_preserve_stop_flag_witness :
    (mkCount 0 true).stop.should_stop = true ∧
    ((mkCount 0 true).init_encoder nq0 []).should_stop = true ∧
    (runEvents ((mkCount 0 true).stop.init_encoder nq0 [])
      (cycleEvents GIF_MIN_FRAMES)).shouldStop = true := by
  have h := c6_stop_and_start_preserve_stop_flag (mkCount 0 true) nq0 []
  refine ⟨?_, ?_, (h.2.2 rfl).2⟩
  · rw [h.1]
    rfl
  · rw [h.2.1]
    rfl

theorem step_submit_encoder (r : GifRecorder) (buf : List Nat) :
    (step r (Event.submitReady buf)).encoder = r.encoder := rfl

theorem step_submit_palette (r : GifRecorder) (buf : List Nat) :
    (step r (Event.submitReady buf)).palette = r.palette := rfl

/-- One "driver completes, host ticks" cycle over the budget: the frame is
dropped, the flag is set. -/
theorem one_cycle_limit (r : GifRecorder) (out e : List Nat) (nq : List Nat → Nat)
    (henc : r.encoder = some out) (hpal : r.palette = some nq)
    (hsz : GIF_MAX_SIZE < out.length + GIF_RESOLUTION * GIF_RESOLUTION + 32) :
    (step (step r (Event.submitReady [])) (Event.tickE e)).should_stop = true ∧
    (step (step r (Event.submitReady [])) (Event.tickE e)).frame_count =
      r.frame_count ∧
    (step (step r (Event.submitReady [])) (Event.tickE e)).encoder = some out ∧
    (step (step r (Event.submitReady [])) (Event.tickE e)).palette = some nq ∧
    (step (step r (Event.submitReady [])) (Event.tickE e)).status = r.status ∧
    (step r (Event.submitReady [])).limitReported = true := by
  have hin1 : (step r (Event.submitReady [])).inflight = some ⟨[], true⟩ := rfl
  have henc1 : (step r (Event.submitReady [])).encoder = some out := henc
  have hpal1 : (step r (Event.submitReady [])).palette = some nq := hpal
  have happ := appendsFrame_of_big (step r (Event.submitReady [])) [] out nq
    hin1 henc1 hpal1 hsz
  have hlim := limitReported_of_big (step r (Event.submitReady [])) [] out nq
    hin1 henc1 hpal1 hsz
  have ht := tick_twf_fields (step r (Event.submitReady [])) e
  refine ⟨?_, ?_, ?_, ?_, ?_, hlim⟩
  · show ((step r (Event.submitReady [])).tick e).1.should_stop = true
    rw [ht.2.2.2.2.2.2.2.2.1, hlim]
    simp
  · show ((step r (Event.submitReady [])).tick e).1.frame_count = r.frame_count
    rw [ht.2.2.2.2.2.2.1, happ]
    rfl
  · show ((step r (Event.submitReady [])).tick e).1.encoder = some out
    rw [ht.2.2.2.2.2.2.2.1, happ]
    simp [henc1]
  · show ((step r (Event.submitReady [])).tick e).1.palette = some nq
    rw [ht.2.2.2.2.2.2.2.2.2.1]
    exact hpal1
  · exact ht.2.2.2.2.2.2.2.2.2.2.1

theorem repIC_start (r : GifRecorder) (f : Bool) (nq : List Nat → Nat)
    (hdr : List Nat) (rest : List Event) :
    reportedInCurrent r f (Event.start nq hdr :: rest) =
      reportedInCurrent (step r (Event.start nq hdr)) false rest := rfl

theorem repIC_submit (r : GifRecorder) (f : Bool) (buf : List Nat)
    (rest : List Event) :
    reportedInCurrent r f (Event.submitReady buf :: rest) =
      reportedInCurrent (step r (Event.submitReady buf)) f rest := rfl

theorem repIC_tick (r : GifRecorder) (f : Bool) (e : List Nat)
    (rest : List Event) :
    reportedInCurrent r f (Event.tickE e :: rest) =
      reportedInCurrent (step r (Event.tickE e)) (f || r.limitReported) rest := rfl

theorem repIC_stop (r : GifRecorder) (f : Bool) (rest : List Event) :
    reportedInCurrent r f (Event.stopE :: rest) =
      reportedInCurrent (step r Event.stopE) f rest := rfl

/-- Claim C2 is false as stated: at the end of `c2trace` the recorder has
`frame_count = 100 ∈ [GIF_MIN_FRAMES, GIF_MAX_FRAMES)` and `should_stop()`
returns `true`, yet the encoder never reported the size limit during the
current recording — the report happened in the previous recording and the
flag survived `stop` and `start`. -/
theorem c2_counterexample :
    GIF_MIN_FRAMES ≤ c2state.frame_count ∧
    c2state.frame_count < GIF_MAX_FRAMES ∧
    c2state.shouldStop = true ∧
    reportedInCurrent GifRecorder.new false c2trace = false := by
  have hc3 : c2s3 = step (step c2s1 (Event.submitReady [])) (Event.tickE bigFrame) :=
    rfl
  have hc5 : c2s5 = step (step c2s3 (Event.submitReady [])) (Event.tickE []) := rfl
  have h1 : ([] : List Nat).length + GIF_RESOLUTION * GIF_RESOLUTION + 32
      ≤ GIF_MAX_SIZE := by
    norm_num [GIF_RESOLUTION, GIF_MAX_SIZE]
  have hc1 := one_cycle c2s1 [] bigFrame nq0 rfl rfl h1
  have henc3 : c2s3.encoder = some ([] ++ bigFrame) := by
    rw [hc3]
    exact hc1.2.1
  have hpal3 : c2s3.palette = some nq0 := by
    rw [hc3]
    exact hc1.2.2.2.2.1
  have hlen : ([] ++ bigFrame : List Nat).length = 10325729 := by
    simp only [List.nil_append, bigFrame, List.length_replicate]
  have hsz4 : GIF_MAX_SIZE <
      ([] ++ bigFrame : List Nat).length + GIF_RESOLUTION * GIF_RESOLUTION + 32 := by
    rw [hlen]
    norm_num [GIF_MAX_SIZE, GIF_RESOLUTION]
  have hl5 := one_cycle_limit c2s3 ([] ++ bigFrame) [] nq0 henc3 hpal3 hsz4
  have h5ss : c2s5.should_stop = true := by
    rw [hc5]
    exact hl5.1
  have hstop_ss : ∀ (r : GifRecorder), r.stop.should_stop = r.should_stop :=
    fun _ => rfl
  have hinit_ss : ∀ (r : GifRecorder) (nq : List Nat → Nat) (hdr : List Nat),
      (r.init_encoder nq hdr).should_stop = r.should_stop := fun _ _ _ => rfl
  have hc7 : c2s7 = (step c2s5 Event.stopE).init_encoder nq0 [] := rfl
  have hc7s : step c2s5 Event.stopE = c2s5.stop := rfl
  have h7ss : c2s7.should_stop = true := by
    rw [hc7, hinit_ss, hc7s, hstop_ss]
    exact h5ss
  have henc7 : c2s7.encoder = some [] := rfl
  have hpal7 : c2s7.palette = some nq0 := rfl
  have hfc7 : c2s7.frame_count = 0 := rfl
  have hszc : ([] : List Nat).length + GIF_MIN_FRAMES +
      GIF_RESOLUTION * GIF_RESOLUTION + 32 ≤ GIF_MAX_SIZE := by
    norm_num [GIF_MIN_FRAMES, GIF_RESOLUTION, GIF_MAX_SIZE]
  have hrc := run_cycles GIF_MIN_FRAMES c2s7 [] nq0 henc7 hpal7 hszc
  have hsplit : c2state =
      runEvents (runEvents GifRecorder.new
        [Event.start nq0 [], Event.submitReady [], Event.tickE bigFrame,
         Event.submitReady [], Event.tickE [], Event.stopE, Event.start nq0 []])
        (cycleEvents GIF_MIN_FRAMES) := by
    unfold c2state c2trace runEvents
    rw [List.foldl_append]
  have hpre : runEvents GifRecorder.new
      [Event.start nq0 [], Event.submitReady [], Event.tickE bigFrame,
       Event.submitReady [], Event.tickE [], Event.stopE, Event.start nq0 []]
      = c2s7 := rfl
  have hstate : c2state = runEvents c2s7 (cycleEvents GIF_MIN_FRAMES) := by
    rw [hsplit, hpre]
  have hfc : c2state.frame_count = GIF_MIN_FRAMES := by
    rw [hstate, hrc.1, hfc7]
    omega
  have hflag : c2state.should_stop = true := by
    rw [hstate, hrc.2.1]
    exact h7ss
  refine ⟨?_, ?_, ?_, ?_⟩
  · rw [hfc]
  · rw [hfc]
    norm_num [GIF_MIN_FRAMES, GIF_MAX_FRAMES]
  · unfold GifRecorder.shouldStop
    rw [hfc, hflag]
    decide
  · have hchain :
        step (step (step (step (step (step (step GifRecorder.new
          (Event.start nq0 [])) (Event.submitReady [])) (Event.tickE bigFrame))
          (Event.submitReady [])) (Event.tickE [])) Event.stopE)
          (Event.start nq0 []) = c2s7 := rfl
    have hrep : reportedInCurrent GifRecorder.new false c2trace =
        reportedInCurrent c2s7 false (cycleEvents GIF_MIN_FRAMES) := by
      simp only [c2trace, List.cons_append, List.nil_append]
      rw [repIC_start, repIC_submit, repIC_tick, repIC_submit, repIC_tick,
        repIC_stop, repIC_start, hchain]
    rw [hrep]
    exact hrc.2.2.2.2.2.1 false

theorem rowsFlat_length (buf : List Nat) (p u : Nat) :
    ∀ n, (∀ y, y < n → y * p + u ≤ buf.length) →
      (rowsFlat buf p u n).length = n * u := by
  intro n
  induction n with
  | zero => intro _; simp [rowsFlat]
  | succ n ih =>
    intro h
    have hrow : ((buf.drop (n * p)).take u).length = u := by
      have := h n (Nat.lt_succ_self n)
      simp [List.length_take, List.length_drop]
      omega
    have hx := ih (fun y hy => h y (Nat.lt_succ_of_lt hy))
    simp [rowsFlat, hx, hrow, Nat.succ_mul]

theorem foldl_setSlice_eq (buf : List Nat) (p u : Nat) :
    ∀ (n : Nat) (init : List Nat),
      (∀ y, y < n → y * p + u ≤ buf.length) → n * u ≤ init.length →
      (List.range n).foldl
        (fun acc y => setSlice acc (y * u) ((buf.drop (y * p)).take u)) init
      = rowsFlat buf p u n ++ init.drop (n * u) := by
  intro n
  induction n with
  | zero =>
    intro init _ _
    simp [rowsFlat]
  | succ n ih =>
    intro init h hlen
    have hx := ih init (fun y hy => h y (Nat.lt_succ_of_lt hy)) (by
      have : n * u ≤ (n + 1) * u := Nat.mul_le_mul_right u (Nat.le_succ n)
      omega)
    have hXlen : (rowsFlat buf p u n).length = n * u :=
      rowsFlat_length buf p u n (fun y hy => h y (Nat.lt_succ_of_lt hy))
    have hrow : ((buf.drop (n * p)).take u).length = u := by
      have := h n (Nat.lt_succ_self n)
      simp [List.length_take, List.length_drop]
      omega
    rw [List.range_succ, List.foldl_append]
    simp only [List.foldl_cons, List.foldl_nil]
    rw [hx]
    unfold setSlice
    rw [List.take_append_eq_append_take, List.drop_append_eq_append_drop]
    rw [hXlen, hrow]
    have h1 : (rowsFlat buf p u n).take (n * u) = rowsFlat buf p u n := by
      rw [← hXlen]
      exact List.take_length _
    have h2 : (init.drop (n * u)).take (n * u - n * u) = [] := by
      simp
    have h3 : (rowsFlat buf p u n).drop (n * u + u) = [] := by
      apply List.drop_eq_nil_of_le
      omega
    have h4 : (init.drop (n * u)).drop (n * u + u - n * u) = init.drop ((n + 1) * u) := by
      rw [List.drop_drop]
      congr 1
      rw [Nat.succ_mul]
      omega
    rw [h1, h2, h3, h4]
    simp [rowsFlat]

theorem rowsFlat_slice (buf : List Nat) (p u : Nat) :
    ∀ n y, y < n → (∀ z, z < n → z * p + u ≤ buf.length) →
      ((rowsFlat buf p u n).drop (y * u)).take u = (buf.drop (y * p)).take u := by
  intro n
  induction n with
  | zero => intro y hy _; omega
  | succ n ih =>
    intro y hy h
    have hXlen : (rowsFlat buf p u n).length = n * u :=
      rowsFlat_length buf p u n (fun z hz => h z (Nat.lt_succ_of_lt hz))
    rcases Nat.lt_or_ge y n with hlt | hge
    · have hylen : y * u + u ≤ n * u := by
        have : (y + 1) * u ≤ n * u := Nat.mul_le_mul_right u hlt
        rw [Nat.succ_mul] at this
        omega
      unfold rowsFlat
      rw [List.drop_append_eq_append_drop]
      have hz : ((buf.drop (n * p)).take u).drop (y * u - (rowsFlat buf p u n).length)
          = (buf.drop (n * p)).take u := by
        rw [hXlen]
        have : y * u - n * u = 0 := by omega
        rw [this, List.drop_zero]
      rw [hz, List.take_append_eq_append_take]
      have hdroplen : ((rowsFlat buf p u n).drop (y * u)).length = n * u - y * u := by
        simp [List.length_drop, hXlen]
      have htail : ((buf.drop (n * p)).take u).take
          (u - ((rowsFlat buf p u n).drop (y * u)).length) = [] := by
        rw [hdroplen]
        have : u - (n * u - y * u) = 0 := by omega
        rw [this, List.take_zero]
      rw [htail, List.append_nil]
      exact ih y hlt (fun z hz => h z (Nat.lt_succ_of_lt hz))
    · have hyn : y = n := by omega
      subst hyn
      unfold rowsFlat
      rw [List.drop_append_eq_append_drop]
      have h0 : (rowsFlat buf p u y).drop (y * u) = [] := by
        apply List.drop_eq_nil_of_le
        omega
      rw [h0, hXlen]
      have : y * u - y * u = 0 := by omega
      rw [this, List.drop_zero, List.nil_append, List.take_take]
      simp

/-- With a full-size staging buffer, the resize-then-overwrite loop of
`poll_inflight` produces exactly the 400 unpadded rows, regardless of the
previous `rgba_buffer` contents. -/
theorem unpadRows_eq (old buf : List Nat) (h : 716608 ≤ buf.length) :
    unpadRows old buf = rowsFlat buf 1792 1600 400 := by
  have hrows : ∀ y, y < 400 → y * 1792 + 1600 ≤ buf.length := by
    intro y hy
    have : y * 1792 ≤ 399 * 1792 := Nat.mul_le_mul_right 1792 (by omega)
    omega
  have hinit : 400 * 1600 ≤ (listResize old 640000).length := by
    rw [listResize_length]
  have hfold := foldl_setSlice_eq buf 1792 1600 400 (listResize old 640000)
    hrows hinit
  have hdrop : (listResize old 640000).drop (400 * 1600) = [] := by
    apply List.drop_eq_nil_of_le
    rw [listResize_length]
  unfold unpadRows
  simp only [GIF_RESOLUTION]
  norm_num
  rw [hfold, hdrop, List.append_nil]

/-- Claim C8: when `poll_inflight` finds a ready readback with a full-size
mapped staging buffer (716800 = 1792·400 bytes, 1792 being the 256-aligned
row stride), it returns `true`, consumes the `InFlight`, leaves
`rgba_buffer` with exactly `400·400·4 = 640000` bytes, and row `y` of
`rgba_buffer` equals bytes `[y·1792, y·1792+1600)` of the staging buffer;
with the flag unset or no readback in flight it returns `false` and changes
nothing. -/
theorem c8_poll_collects_rows (r : GifRecorder) (buf : List Nat) (y : Nat) :
    (r.inflight = some ⟨buf, true⟩ → buf.length = 716800 → y < 400 →
      (r.poll_inflight).1 = true ∧
      (r.poll_inflight).2.rgba_buffer.length = 640000 ∧
      (r.poll_inflight).2.inflight = Option.none ∧
      ((r.poll_inflight).2.rgba_buffer.drop (y * 1600)).take 1600 =
        (buf.drop (y * 1792)).take 1600) ∧
    (r.inflight = some ⟨buf, false⟩ → r.poll_inflight = (false, r)) ∧
    (r.inflight = Option.none → r.poll_inflight = (false, r)) := by
  refine ⟨?_, poll_eq_unready r buf, poll_eq_none r⟩
  intro hin hlen hy
  have hrows : ∀ z, z < 400 → z * 1792 + 1600 ≤ buf.length := by
    intro z hz
    have : z * 1792 ≤ 399 * 1792 := Nat.mul_le_mul_right 1792 (by omega)
    omega
  have hub : unpadRows r.rgba_buffer buf = rowsFlat buf 1792 1600 400 :=
    unpadRows_eq r.rgba_buffer buf (by omega)
  rw [poll_eq_ready r buf hin]
  refine ⟨rfl, ?_, rfl, ?_⟩
  · simp only [collectState]
    rw [hub, rowsFlat_length buf 1792 1600 400 hrows]
  · simp only [collectState]
    rw [hub]
    exact rowsFlat_slice buf 1792 1600 400 y hy hrows

theorem c8_poll_collects_rows_witness :
    (c8rec.poll_inflight).1 = true ∧
    (c8rec.poll_inflight).2.rgba_buffer.length = 640000 ∧
    (c8rec.poll_inflight).2.inflight = Option.none ∧
    ((c8rec.poll_inflight).2.rgba_buffer.drop (7 * 1600)).take 1600 =
      ((List.replicate 716800 (7 : Nat)).drop (7 * 1792)).take 1600 ∧
    GifRecorder.new.poll_inflight = (false, GifRecorder.new) := by
  have h := (c8_poll_collects_rows c8rec (List.replicate 716800 7) 7).1 rfl
    (by rw [List.length_replicate]) (by norm_num)
  exact ⟨h.1, h.2.1, h.2.2.1, h.2.2.2,
    (c8_poll_collects_rows GifRecorder.new [] 0).2.2 rfl⟩

/-! ### CropScale dimension lemmas -/

theorem cropImm_dims (img : Img) (x0 y0 cs : Nat) (hx : x0 + cs ≤ img.width)
    (hy : y0 + cs ≤ img.height) :
    (cropImm img x0 y0 cs cs).width = cs ∧ (cropImm img x0 y0 cs cs).height = cs := by
  unfold cropImm
  constructor <;> simp only [] <;> omega

theorem clamp01_bounds (xq : ℚ) :
    0 ≤ (min (max xq (-1)) 1 + 1) * (1 / 2) ∧
    (min (max xq (-1)) 1 + 1) * (1 / 2) ≤ 1 := by
  have h1 : (-1 : ℚ) ≤ min (max xq (-1)) 1 :=
    le_min (le_max_right xq (-1)) (by norm_num)
  have h2 : min (max xq (-1)) 1 ≤ 1 := min_le_right _ _
  constructor <;> linarith

theorem offset_floor_bound (t : ℚ) (w : Nat) (k : ℤ) (ht1 : t ≤ 1) :
    ⌊t * (max ((w : ℚ) - (k : ℚ)) 0)⌋ ≤ max ((w : ℤ) - k) 0 := by
  have hcast : max ((w : ℚ) - (k : ℚ)) 0 = ((max ((w : ℤ) - k) 0 : ℤ) : ℚ) := by
    rw [Int.cast_max]
    push_cast
    rfl
  have hoff0 : (0 : ℚ) ≤ max ((w : ℚ) - (k : ℚ)) 0 := le_max_right _ _
  have hmul : t * (max ((w : ℚ) - (k : ℚ)) 0) ≤ max ((w : ℚ) - (k : ℚ)) 0 :=
    mul_le_of_le_one_left hoff0 ht1
  calc ⌊t * (max ((w : ℚ) - (k : ℚ)) 0)⌋
      ≤ ⌊max ((w : ℚ) - (k : ℚ)) 0⌋ := Int.floor_le_floor hmul
    _ = max ((w : ℤ) - k) 0 := by rw [hcast, Int.floor_intCast]

theorem apply_core_dims (resize : Img → Nat → Nat → Img)
    (hres : ∀ i a b, (resize i a b).width = a ∧ (resize i a b).height = b)
    (img : Img) (sidelen : Nat) (q : ℤ) (xq yq : ℚ) :
    (if ⌊min (min (max ((q : ℤ) : ℚ) 1) (img.width : ℚ)) (img.height : ℚ)⌋.toNat = sidelen then
        cropImm img
          ⌊(min (max xq (-1)) 1 + 1) * (1 / 2) *
            (max ((img.width : ℚ) -
              min (min (max ((q : ℤ) : ℚ) 1) (img.width : ℚ)) (img.height : ℚ)) 0)⌋.toNat
          ⌊(min (max yq (-1)) 1 + 1) * (1 / 2) *
            (max ((img.height : ℚ) -
              min (min (max ((q : ℤ) : ℚ) 1) (img.width : ℚ)) (img.height : ℚ)) 0)⌋.toNat
          ⌊min (min (max ((q : ℤ) : ℚ) 1) (img.width : ℚ)) (img.height : ℚ)⌋.toNat
          ⌊min (min (max ((q : ℤ) : ℚ) 1) (img.width : ℚ)) (img.height : ℚ)⌋.toNat
      else
        resize
          (cropImm img
            ⌊(min (max xq (-1)) 1 + 1) * (1 / 2) *
              (max ((img.width : ℚ) -
                min (min (max ((q : ℤ) : ℚ) 1) (img.width : ℚ)) (img.height : ℚ)) 0)⌋.toNat
            ⌊(min (max yq (-1)) 1 + 1) * (1 / 2) *
              (max ((img.height : ℚ) -
                min (min (max ((q : ℤ) : ℚ) 1) (img.width : ℚ)) (img.height : ℚ)) 0)⌋.toNat
            ⌊min (min (max ((q : ℤ) : ℚ) 1) (img.width : ℚ)) (img.height : ℚ)⌋.toNat
            ⌊min (min (max ((q : ℤ) : ℚ) 1) (img.width : ℚ)) (img.height : ℚ)⌋.toNat)
          sidelen sidelen).width = sidelen ∧
    (if ⌊min (min (max ((q : ℤ) : ℚ) 1) (img.width : ℚ)) (img.height : ℚ)⌋.toNat = sidelen then
        cropImm img
          ⌊(min (max xq (-1)) 1 + 1) * (1 / 2) *
            (max ((img.width : ℚ) -
              min (min (max ((q : ℤ) : ℚ) 1) (img.width : ℚ)) (img.height : ℚ)) 0)⌋.toNat
          ⌊(min (max yq (-1)) 1 + 1) * (1 / 2) *
            (max ((img.height : ℚ) -
              min (min (max ((q : ℤ) : ℚ) 1) (img.width : ℚ)) (img.height : ℚ)) 0)⌋.toNat
          ⌊min (min (max ((q : ℤ) : ℚ) 1) (img.width : ℚ)) (img.height : ℚ)⌋.toNat
          ⌊min (min (max ((q : ℤ) : ℚ) 1) (img.width : ℚ)) (img.height : ℚ)⌋.toNat
      else
        resize
          (cropImm img
            ⌊(min (max xq (-1)) 1 + 1) * (1 / 2) *
              (max ((img.width : ℚ) -
                min (min (max ((q : ℤ) : ℚ) 1) (img.width : ℚ)) (img.height : ℚ)) 0)⌋.toNat
            ⌊(min (max yq (-1)) 1 + 1) * (1 / 2) *
              (max ((img.height : ℚ) -
                min (min (max ((q : ℤ) : ℚ) 1) (img.width : ℚ)) (img.height : ℚ)) 0)⌋.toNat
            ⌊min (min (max ((q : ℤ) : ℚ) 1) (img.width : ℚ)) (img.height : ℚ)⌋.toNat
            ⌊min (min (max ((q : ℤ) : ℚ) 1) (img.width : ℚ)) (img.height : ℚ)⌋.toNat)
          sidelen sidelen).height = sidelen := by
  have hcast : min (min (max ((q : ℤ) : ℚ) 1) (img.width : ℚ)) (img.height : ℚ)
      = ((min (min (max q 1) (img.width : ℤ)) (img.height : ℤ) : ℤ) : ℚ) := by
    rw [Int.cast_min, Int.cast_min, Int.cast_max]
    push_cast
    rfl
  have hCS : ⌊min (min (max ((q : ℤ) : ℚ) 1) (img.width : ℚ)) (img.height : ℚ)⌋
      = min (min (max q 1) (img.width : ℤ)) (img.height : ℤ) := by
    rw [hcast, Int.floor_intCast]
  have hk0 : 0 ≤ min (min (max q 1) (img.width : ℤ)) (img.height : ℤ) := by omega
  have hkw : min (min (max q 1) (img.width : ℤ)) (img.height : ℤ) ≤ (img.width : ℤ) := by
    omega
  have hkh : min (min (max q 1) (img.width : ℤ)) (img.height : ℤ) ≤ (img.height : ℤ) := by
    omega
  have hclx := clamp01_bounds xq
  have hcly := clamp01_bounds yq
  have hx0 : ⌊(min (max xq (-1)) 1 + 1) * (1 / 2) *
      (max ((img.width : ℚ) -
        min (min (max ((q : ℤ) : ℚ) 1) (img.width : ℚ)) (img.height : ℚ)) 0)⌋ ≤
      max ((img.width : ℤ) - min (min (max q 1) (img.width : ℤ)) (img.height : ℤ)) 0 := by
    rw [hcast]
    exact offset_floor_bound _ img.width _ hclx.2
  have hy0 : ⌊(min (max yq (-1)) 1 + 1) * (1 / 2) *
      (max ((img.height : ℚ) -
        min (min (max ((q : ℤ) : ℚ) 1) (img.width : ℚ)) (img.height : ℚ)) 0)⌋ ≤
      max ((img.height : ℤ) - min (min (max q 1) (img.width : ℤ)) (img.height : ℤ)) 0 := by
    rw [hcast]
    exact offset_floor_bound _ img.height _ hcly.2
  constructor
  · split
    · rename_i hside
      exact ((cropImm_dims img _ _ _ (by rw [hCS]; omega) (by rw [hCS]; omega)).1).trans hside
    · exact (hres _ _ _).1
  · split
    · rename_i hside
      exact ((cropImm_dims img _ _ _ (by rw [hCS]; omega) (by rw [hCS]; omega)).2).trans hside
    · exact (hres _ _ _).2

theorem apply_dims (c : CropScale) (resize : Img → Nat → Nat → Img)
    (hres : ∀ i a b, (resize i a b).width = a ∧ (resize i a b).height = b)
    (img : Img) (sidelen : Nat) :
    (c.apply resize img sidelen).width = sidelen ∧
    (c.apply resize img sidelen).height = sidelen := by
  unfold CropScale.apply
  simp only []
  exact apply_core_dims resize hres img sidelen
    ⌊((min img.width img.height : Nat) : ℚ) / max c.scale 1⌋ c.x c.y

/-! ### Pixel enumeration lemmas -/

theorem flatMap_range_length {α : Type} (f : Nat → List α) (L : Nat)
    (hL : ∀ y, (f y).length = L) :
    ∀ n, ((List.range n).flatMap f).length = n * L := by
  intro n
  induction n with
  | zero => simp
  | succ n ih =>
    rw [List.range_succ, List.flatMap_append]
    simp [ih, hL, Nat.succ_mul]

theorem flatMap_range_getElem? {α : Type} (f : Nat → List α) (L : Nat)
    (hL : ∀ y, (f y).length = L) :
    ∀ n i, i < n * L → ((List.range n).flatMap f)[i]? = (f (i / L))[i % L]? := by
  intro n
  induction n with
  | zero => intro i hi; omega
  | succ n ih =>
    intro i hi
    have hsm : (n + 1) * L = n * L + L := by ring
    have hL0 : 0 < L := by
      by_contra h0
      have hz : L = 0 := by omega
      subst hz
      omega
    rw [List.range_succ, List.flatMap_append]
    have hlen : ((List.range n).flatMap f).length = n * L := flatMap_range_length f L hL n
    rcases Nat.lt_or_ge i (n * L) with hlt | hge
    · rw [List.getElem?_append, if_pos (by omega)]
      exact ih i hlt
    · have hr : i - n * L < L := by omega
      have hcomm : L * n = n * L := Nat.mul_comm L n
      have hdiv : i / L = n := by
        rw [show i = (i - n * L) + L * n by omega]
        rw [Nat.add_mul_div_left _ _ hL0, Nat.div_eq_of_lt hr]
        omega
      have hmod : i % L = i - n * L := by
        rw [show i = (i - n * L) + L * n by omega]
        rw [Nat.add_mul_mod_self_left, Nat.mod_eq_of_lt hr]
        omega
      rw [List.getElem?_append,
        if_neg (show ¬ i < ((List.range n).flatMap f).length by rw [hlen]; omega),
        hlen, hdiv, hmod]
      simp

theorem enumeratePixels_length (img : Img) :
    img.enumeratePixels.length = img.height * img.width := by
  unfold Img.enumeratePixels
  exact flatMap_range_length _ img.width (fun y => by simp) img.height

theorem enumeratePixels_getElem? (img : Img) (i : Nat)
    (hi : i < img.height * img.width) :
    img.enumeratePixels[i]? =
      some (i % img.width, i / img.width,
        img.pixel (i % img.width) (i / img.width)) := by
  unfold Img.enumeratePixels
  rw [flatMap_range_getElem? _ img.width (fun y => by simp) img.height i hi]
  have hw : 0 < img.width := by
    by_contra h0
    have hz : img.width = 0 := by omega
    rw [hz] at hi
    omega
  rw [List.getElem?_map, List.getElem?_range (Nat.mod_lt i hw)]
  rfl

theorem zip_getElem?_of_both {α β : Type} (l : List α) (m : List β) :
    ∀ (i : Nat) (a : α) (b : β), l[i]? = some a → m[i]? = some b →
      (l.zip m)[i]? = some (a, b) := by
  induction l generalizing m with
  | nil => intro i a b ha _; simp at ha
  | cons x xs ih =>
    intro i a b ha hb
    cases m with
    | nil => simp at hb
    | cons y ys =>
      cases i with
      | zero =>
        simp at ha hb
        simp [List.zip_cons_cons, ha, hb]
      | succ j =>
        simp at ha hb
        simpa [List.zip_cons_cons] using ih ys j a b ha hb

theorem exists_getElem? {α : Type} (l : List α) (i : Nat) (h : i < l.length) :
    ∃ v, l[i]? = some v :=
  ⟨l[i], List.getElem?_eq_getElem h⟩

theorem foldl_set_length (w : Nat) :
    ∀ (l : List (Nat × Nat × List Nat)) (init : List Nat),
      (l.foldl (fun ws p => ws.set (p.2.1 * w + p.1) (p.2.2.headD 0)) init).length
        = init.length := by
  intro l
  induction l with
  | nil => intro init; rfl
  | cons p ps ih =>
    intro init
    rw [List.foldl_cons, ih, List.length_set]

theorem load_weights_length (src : Img) :
    (load_weights src).length = src.width * src.height := by
  unfold load_weights
  rw [foldl_set_length, List.length_replicate]

theorem get_target_spec (resize : Img → Nat → Nat → Img)
    (hres : ∀ i a b, (resize i a b).width = a ∧ (resize i a b).height = b)
    (s : GenerationSettings) (hct : ValidCustomTarget s) :
    ∃ timg weights, s.get_target resize = some (timg, weights) ∧
      timg.width = s.sidelen ∧ timg.height = s.sidelen ∧
      weights.length = s.sidelen * s.sidelen := by
  rcases hc : s.custom_target with _ | ⟨w, h, d⟩
  · refine ⟨s.target_crop_scale.apply resize target256 s.sidelen,
      load_weights (s.target_crop_scale.apply resize weights256 s.sidelen),
      ?_, ?_, ?_, ?_⟩
    · unfold GenerationSettings.get_target GenerationSettings.get_raw_target
      rw [hc]
    · exact (apply_dims _ _ hres _ _).1
    · exact (apply_dims _ _ hres _ _).2
    · rw [load_weights_length]
      have hd := apply_dims s.target_crop_scale resize hres weights256 s.sidelen
      rw [hd.1, hd.2]
  · have hle : 3 * (w * h) ≤ d.length := hct w h d hc
    refine ⟨s.target_crop_scale.apply resize ⟨w, h, d⟩ s.sidelen,
      List.replicate (s.sidelen * s.sidelen) 255, ?_, ?_, ?_, ?_⟩
    · unfold GenerationSettings.get_target GenerationSettings.get_raw_target
      rw [hc]
      simp [hle]
    · exact (apply_dims _ _ hres _ _).1
    · exact (apply_dims _ _ hres _ _).2
    · exact List.length_replicate _ _

theorem coords_of_index (side i : Nat) (h : i < side * side) (hs : side ≤ 65535) :
    i / side % 65536 * side + i % side % 65536 = i := by
  have hs0 : 0 < side := by
    by_contra h0
    have hz : side = 0 := by omega
    subst hz
    omega
  have hdl : i / side < side := (Nat.div_lt_iff_lt_mul hs0).mpr h
  have hml : i % side < side := Nat.mod_lt i hs0
  rw [Nat.mod_eq_of_lt (by omega), Nat.mod_eq_of_lt (by omega)]
  have hdm := Nat.div_add_mod i side
  have hcomm : side * (i / side) = i / side * side := Nat.mul_comm _ _
  omega

/-- Claim C7: for any source image and any settings with `1 ≤ sidelen ≤ 65535`
(and a well-formed custom target, the invariant `set_raw_target` maintains),
`get_images` returns `Ok` with two vectors of length `sidelen²`, both in
row-major enumeration order: the element at index `i` has coordinates
`(x, y)` with `y·sidelen + x = i`. -/
theorem c7_get_images_row_major (resize : Img → Nat → Nat → Img)
    (hres : ∀ i a b, (resize i a b).width = a ∧ (resize i a b).height = b)
    (src : Img) (s : GenerationSettings)
    (hside2 : s.sidelen ≤ 65535)
    (hct : ValidCustomTarget s) :
    ∃ a b, get_images resize src s = some (a, b) ∧
      a.length = s.sidelen * s.sidelen ∧
      b.length = s.sidelen * s.sidelen ∧
      ∀ i, i < s.sidelen * s.sidelen →
        (a[i]?.map fun p => p.y * s.sidelen + p.x) = some i ∧
        (b[i]?.map fun p => p.pixel.y * s.sidelen + p.pixel.x) = some i := by
  obtain ⟨timg, weights, hgt, htw, hth, hwl⟩ := get_target_spec resize hres s hct
  have hsrc := apply_dims s.source_crop_scale resize hres src s.sidelen
  refine ⟨(s.source_crop_scale.apply resize src s.sidelen).enumeratePixels.map
      (fun p => GridPixel.new p.1 p.2.1 p.2.2),
    (timg.enumeratePixels.zip weights).map
      (fun pw => { pixel := GridPixel.new pw.1.1 pw.1.2.1 pw.1.2.2
                   weight := pw.2 : WeightedPixel }),
    ?_, ?_, ?_, ?_⟩
  · unfold get_images
    rw [hgt]
    simp only [List.length_map, List.length_zip, enumeratePixels_length,
      hsrc.1, hsrc.2, htw, hth, hwl, Nat.min_self, if_pos]
  · simp [List.length_map, enumeratePixels_length, hsrc.1, hsrc.2]
  · simp [List.length_map, List.length_zip, enumeratePixels_length, htw, hth, hwl]
  · intro i hi
    constructor
    · have he := enumeratePixels_getElem?
        (s.source_crop_scale.apply resize src s.sidelen) i
        (by rw [hsrc.1, hsrc.2]; exact hi)
      rw [hsrc.1] at he
      rw [List.getElem?_map, he]
      simp only [Option.map_some', GridPixel.new]
      exact congrArg some (coords_of_index s.sidelen i hi hside2)
    · have he2 := enumeratePixels_getElem? timg i (by rw [htw, hth]; exact hi)
      rw [htw] at he2
      obtain ⟨v, hv⟩ := exists_getElem? weights i (by rw [hwl]; exact hi)
      have hz := zip_getElem?_of_both timg.enumeratePixels weights i _ _ he2 hv
      rw [List.getElem?_map, hz]
      simp only [Option.map_some', GridPixel.new]
      exact congrArg some (coords_of_index s.sidelen i hi hside2)

theorem c7_get_images_row_major_witness :
    (get_images rz0 c7src c7settings).map (fun p => (p.1.length, p.2.length))
      = some (1, 1) := by
  have hct : ValidCustomTarget c7settings := by
    intro w h d hc
    have h0 : some ((1 : Nat), (1 : Nat), ([4, 5, 6] : List Nat)) = some (w, h, d) := hc
    injection h0 with h4
    cases h4
    decide
  obtain ⟨a, b, hab, hal, hbl, _⟩ := c7_get_images_row_major rz0
    (fun _ _ _ => ⟨rfl, rfl⟩) c7src c7settings (by decide) hct
  rw [hab, Option.map_some']
  rw [show c7settings.sidelen = 1 from rfl] at hal hbl
  rw [hal, hbl]

theorem flatMap_take_drop_reconstruct :
    ∀ (n : Nat) (l : List Nat) (m : Nat), l.length = n * m →
      (List.range n).flatMap (fun j => (l.drop (j * m)).take m) = l := by
  intro n
  induction n with
  | zero =>
    intro l m h
    have : l = [] := List.eq_nil_of_length_eq_zero (by omega)
    simp [this]
  | succ n ih =>
    intro l m h
    have hsm : (n + 1) * m = n * m + m := by ring
    rw [List.range_succ_eq_map, List.flatMap_cons, List.flatMap_map]
    have hlen2 : (l.drop m).length = n * m := by
      rw [List.length_drop, h]
      omega
    simp only [Function.comp, Nat.succ_mul, Nat.zero_mul, List.drop_zero]
    have hfun : (fun a => (List.drop (a * m + m) l).take m)
        = (fun a => ((l.drop m).drop (a * m)).take m) := by
      funext a
      rw [List.drop_drop, Nat.add_comm]
    rw [hfun, ih (l.drop m) m hlen2]
    exact List.take_append_drop m l

theorem cropImm_full (w : Nat) (data : List Nat) (h : data.length = 3 * (w * w)) :
    cropImm ⟨w, w, data⟩ 0 0 w w = ⟨w, w, data⟩ := by
  unfold cropImm
  simp only [Nat.zero_min, Nat.sub_zero, Nat.min_self, Nat.zero_add, Nat.add_zero]
  have hfun : (fun j => (data.drop (3 * (j * w))).take (3 * w))
      = (fun j => (data.drop (j * (3 * w))).take (3 * w)) := by
    funext j
    rw [show 3 * (j * w) = j * (3 * w) by ring]
  rw [hfun, flatMap_take_drop_reconstruct w data (3 * w) (by rw [h]; ring)]

/-- Claim C9: `CropScale::identity().apply(img, S)` is bit-exactly `img` for a
square `S×S` RGB image (`S ≥ 1`, buffer of the exact `3·S²` size). -/
theorem c9_identity_apply_bit_exact (resize : Img → Nat → Nat → Img)
    (img : Img) (S : Nat) (hS : 1 ≤ S) (hw : img.width = S) (hh : img.height = S)
    (hlen : img.data.length = 3 * (S * S)) :
    CropScale.identity.apply resize img S = img := by
  rcases img with ⟨w, h, data⟩
  change w = S at hw
  change h = S at hh
  change data.length = 3 * (S * S) at hlen
  subst S
  subst h
  have hq : (1 : ℚ) ≤ (w : ℚ) := by exact_mod_cast hS
  unfold CropScale.identity CropScale.apply
  simp only [Nat.min_self, Int.floor_natCast, Int.cast_natCast, div_one,
    max_self, max_eq_left hq, min_self, sub_self,
    max_eq_left (show (-1 : ℚ) ≤ 0 by norm_num),
    min_eq_left (show (0 : ℚ) ≤ 1 by norm_num),
    zero_add, one_mul, mul_zero, Int.floor_zero, Int.toNat_zero,
    Int.toNat_natCast, if_pos]
  exact cropImm_full w data hlen

theorem c9_identity_apply_bit_exact_witness :
    CropScale.identity.apply rz0 c9img 2 = c9img :=
  c9_identity_apply_bit_exact rz0 c9img 2 (by norm_num) rfl rfl (by decide)

theorem apply_id_2x1 (resize : Img → Nat → Nat → Img) :
    CropScale.identity.apply resize
      { width := 2, height := 1, data := [1, 2, 3, 4, 5, 6] } 1
      = { width := 1, height := 1, data := [1, 2, 3] } := by
  unfold CropScale.identity CropScale.apply
  norm_num
  decide

theorem c5_target_value :
    c5settings.get_target rz0 =
      some ({ width := 1, height := 1, data := [1, 2, 3] }, [255]) := by
  unfold GenerationSettings.get_target GenerationSettings.get_raw_target
  rw [show c5settings.custom_target = some (2, 1, [1, 2, 3, 4, 5, 6]) from rfl]
  norm_num
  rw [show c5settings.target_crop_scale = CropScale.identity from rfl,
    show c5settings.sidelen = 1 from rfl, apply_id_2x1]
  constructor
  · rfl
  · rfl

/-- Claim C5 is false as stated: with a 2×1 custom target and `sidelen = 1`,
`get_target` does not return the raw buffer at its native dimensions — the
target crop/scale is applied, yielding a 1×1 image holding only the first
pixel. -/
theorem c5_counterexample :
    c5settings.get_raw_target =
      some { width := 2, height := 1, data := [1, 2, 3, 4, 5, 6] } ∧
    c5settings.get_target rz0 =
      some ({ width := 1, height := 1, data := [1, 2, 3] }, [255]) ∧
    ({ width := 1, height := 1, data := [1, 2, 3] } : Img) ≠
      { width := 2, height := 1, data := [1, 2, 3, 4, 5, 6] } := by
  exact ⟨by decide, c5_target_value, by decide⟩

/-- Claim C5 as amended: for a (well-formed) custom target, `get_raw_target`
returns the raw RGB buffer at its native dimensions, but `get_target` still
applies `target_crop_scale` at `sidelen` to it; the weights are uniformly 255,
of length `sidelen²`. -/
theorem c5_amended_custom_target (resize : Img → Nat → Nat → Img)
    (s : GenerationSettings) (w h : Nat) (d : List Nat)
    (hc : s.custom_target = some (w, h, d)) (hd : 3 * (w * h) ≤ d.length) :
    s.get_raw_target = some { width := w, height := h, data := d } ∧
    s.get_target resize = some
      (s.target_crop_scale.apply resize { width := w, height := h, data := d }
        s.sidelen,
       List.replicate (s.sidelen * s.sidelen) 255) := by
  constructor
  · unfold GenerationSettings.get_raw_target
    rw [hc]
    simp [hd]
  · unfold GenerationSettings.get_target GenerationSettings.get_raw_target
    rw [hc]
    simp [hd]

theorem c5_amended_custom_target_witness :
    c5settings.get_raw_target =
      some { width := 2, height := 1, data := [1, 2, 3, 4, 5, 6] } ∧
    c5settings.get_target rz0 = some
      (c5settings.target_crop_scale.apply rz0
        { width := 2, height := 1, data := [1, 2, 3, 4, 5, 6] } c5settings.sidelen,
       List.replicate (c5settings.sidelen * c5settings.sidelen) 255) :=
  c5_amended_custom_target rz0 c5settings 2 1 [1, 2, 3, 4, 5, 6] rfl (by norm_num)

/-- Claim C10 is false as stated: the name `"a v+5"` does not end in
`" v<digits>"`, so the claim requires appending `" v2"`; but Rust's
`str::parse::<u32>` accepts the leading `'+'`, so the code produces
`"a v6"`. -/
theorem c10_counterexample :
    claimBumpName ("a v+5".toList) = ("a v+5 v2".toList) ∧
    (c10settings.clone_with_new_id 1).name = ("a v6".toList) ∧
    ("a v6".toList : List Char) ≠ ("a v+5 v2".toList) := by
  exact ⟨by decide, by decide, by decide⟩

/-- Claim C10 as amended: `clone_with_new_id` replaces the id with the fresh
one and bumps the name by parsing the suffix after the last `" v"` as a Rust
`u32` (so a leading `'+'` is accepted and values ≥ 2^32 are rejected),
incrementing on success and appending `" v2"` otherwise; in particular
`"foo v9" → "foo v10" → "foo v11"` and `"X" → "X v2" → "X v3"`. -/
theorem c10_clone_bumps_version (s : GenerationSettings) (f : Nat) :
    (s.clone_with_new_id f).id = f ∧
    (s.clone_with_new_id f).name = bumpNameAmended s.name ∧
    ((GenerationSettings.default 0 ("foo v9".toList)).clone_with_new_id 0).name
      = ("foo v10".toList) ∧
    (((GenerationSettings.default 0 ("foo v9".toList)).clone_with_new_id
        0).clone_with_new_id 1).name = ("foo v11".toList) ∧
    ((GenerationSettings.default 0 ("X".toList)).clone_with_new_id 0).name
      = ("X v2".toList) ∧
    (((GenerationSettings.default 0 ("X".toList)).clone_with_new_id
        0).clone_with_new_id 1).name = ("X v3".toList) := by
  refine ⟨rfl, rfl, by decide, by decide, by decide, by decide⟩
